import Mathlib

/-!
# Verification of the surveiller state store, probe engine and metrics escaping

A shallow embedding of the Go sources of the surveiller host-liveness monitor
(packages `internal/state`, `internal/ping`, `internal/scheduler`,
`internal/metrics`).  Durations and time stamps are modelled as integer
nanoseconds (Go `time.Duration` / `time.Time`), Go `int`/`int64` arithmetic as
unbounded `Int` (no operation here approaches 2^63), and Go's truncating
integer division as `Int.tdiv`.  Maps keyed by target name are modelled as
association lists; Go map iteration order is irrelevant to every property
proved below because names are looked up individually.
-/

namespace Surveiller

/-- Health classification of a target (`internal/state/state.go`, `Status`). -/
inductive Status
  | unknown
  | ok
  | warn
  | down
deriving DecidableEq

/-- One RTT measurement (`internal/state/state.go`, `RTTPoint`). -/
structure RTTPoint where
  time : Int
  rtt : Int
deriving DecidableEq

/-- Per-target state (`internal/state/state.go`, `TargetStatus`).  The
`totalSuccess`/`totalFailure` counters are the ones incremented by
`UpdateResult` (`store.go` lines 55 and 87). -/
structure TargetStatus where
  name : String
  address : String
  group : String
  lastRTT : Int
  lastSuccessAt : Int
  lastFailureAt : Int
  consecutiveOK : Int
  consecutiveNG : Int
  totalSuccess : Int
  totalFailure : Int
  status : Status
  history : List RTTPoint
deriving DecidableEq

/-- The part of a Go `error` value inspected by `isPermissionError`
(`ping` package): whether `errors.Is` relates it to `os.ErrPermission` or to
`syscall.EPERM`, and its message text. -/
structure GoError where
  isErrPermission : Bool
  isEPERM : Bool
  message : List Char
deriving DecidableEq

/-- A ping outcome (`internal/ping/pinger.go`, `Result`). -/
structure Result where
  rtt : Int
  success : Bool
  error : Option GoError
deriving DecidableEq

/-- A target definition from the configuration
(`internal/config/types.go`, `TargetConfig`). -/
structure TargetConfig where
  name : String
  address : String
  group : String
  options : List (String × String)
deriving DecidableEq

/-- The state store (`internal/state/store.go`, `StoreImpl`); the mutex is
irrelevant to the functional semantics modelled here. -/
structure StoreImpl where
  targets : List (String × TargetStatus)
  historySize : Int
  downThreshold : Int
  timeout : Int
deriving DecidableEq

/-- `defaultHistorySize` (`store.go` line 12). -/
def defaultHistorySize : Int := 100

/-- `defaultDownThreshold` (`store.go` line 13). -/
def defaultDownThreshold : Int := 3

/-- `thresholdDataPointCount` (`store.go` line 14). -/
def thresholdDataPointCount : Int := 10

/-- Reading `s.targets[name]` from the Go map. -/
def lookupTarget (ts : List (String × TargetStatus)) (name : String) :
    Option TargetStatus :=
  (ts.find? (fun p => p.1 == name)).map (fun p => p.2)

/-- Writing `s.targets[name] = t` into the Go map. -/
def setTarget (ts : List (String × TargetStatus)) (name : String)
    (t : TargetStatus) : List (String × TargetStatus) :=
  if (ts.find? (fun p => p.1 == name)).isSome then
    ts.map (fun p => if p.1 == name then (name, t) else p)
  else ts ++ [(name, t)]

/-- The zero-valued target created by `UpdateResult` when the name is absent:
`&TargetStatus{Name: name, Status: StatusUnknown}` (`store.go` line 45). -/
def freshTarget (name : String) : TargetStatus :=
  { name := name, address := "", group := "", lastRTT := 0, lastSuccessAt := 0,
    lastFailureAt := 0, consecutiveOK := 0, consecutiveNG := 0,
    totalSuccess := 0, totalFailure := 0, status := Status.unknown,
    history := [] }

/-- `calculateRecentAvgRTT` (`store.go` lines 166-188): average of the most
recent `count` data points, `0` when there are none; the division is Go's
truncating `time.Duration` division. -/
def calculateRecentAvgRTT (history : List RTTPoint) (count : Int) : Int :=
  if history.isEmpty then 0
  else
    let start : Int := max ((history.length : Int) - count) 0
    let recent := history.drop start.toNat
    let sum := (recent.map (fun p => p.rtt)).sum
    let usedCount : Int := (history.length : Int) - start
    if usedCount = 0 then 0 else Int.tdiv sum usedCount

/-- `appendHistory` (`store.go` lines 143-154): append, shifting out the
oldest sample once the buffer holds `historySize` points. -/
def appendHistory (historySize : Int) (history : List RTTPoint)
    (point : RTTPoint) : List RTTPoint :=
  if historySize ≤ 0 then history
  else if (history.length : Int) < historySize then history ++ [point]
  else history.drop 1 ++ [point]

/-- The target `UpdateResult` looks up, or creates when absent
(`store.go` lines 43-47). -/
def prevTarget (s : StoreImpl) (name : String) : TargetStatus :=
  (lookupTarget s.targets name).getD (freshTarget name)

/-- The target record as left behind by one `UpdateResult` call
(`store.go` lines 49-92): the body of the success branch and of the failure
branch, factored out of the map update. -/
def updatedTarget (s : StoreImpl) (name : String) (result : Result)
    (now : Int) : TargetStatus :=
  let target := prevTarget s name
  if result.success then
    let hist := appendHistory s.historySize target.history
      { time := now, rtt := result.rtt }
    let avgRaw := calculateRecentAvgRTT hist thresholdDataPointCount
    let avgRTT := if avgRaw ≤ 0 then result.rtt else avgRaw
    let okThreshold := Int.tdiv s.timeout 4
    let warnThreshold := Int.tdiv s.timeout 2
    let newStatus :=
      if avgRTT ≤ okThreshold then Status.ok
      else if avgRTT ≤ warnThreshold then Status.warn
      else Status.warn
    { target with
      lastRTT := result.rtt
      lastSuccessAt := now
      consecutiveOK := target.consecutiveOK + 1
      consecutiveNG := 0
      totalSuccess := target.totalSuccess + 1
      history := hist
      status := newStatus }
  else
    let ng := target.consecutiveNG + 1
    let newStatus := if s.downThreshold ≤ ng then Status.down else Status.warn
    { target with
      lastFailureAt := now
      consecutiveNG := ng
      consecutiveOK := 0
      totalFailure := target.totalFailure + 1
      status := newStatus }

/-- `UpdateResult` (`store.go` lines 39-93).  `now` stands for the value of
`time.Now()` taken at line 49. -/
def UpdateResult (s : StoreImpl) (name : String) (result : Result)
    (now : Int) : StoreImpl :=
  { s with targets := setTarget s.targets name (updatedTarget s name result now) }

/-- The fresh UNKNOWN entry built by `UpdateTargets` for a new name
(`store.go` lines 120-125). -/
def freshFromConfig (tgt : TargetConfig) : TargetStatus :=
  { freshTarget tgt.name with address := tgt.address, group := tgt.group }

/-- The entry `UpdateTargets` stores for one configured target: reuse the
existing state with `Address`/`Group` overwritten, or create a fresh
UNKNOWN entry (`store.go` lines 113-125). -/
def mergeTarget (old : List (String × TargetStatus)) (tgt : TargetConfig) :
    TargetStatus :=
  match lookupTarget old tgt.name with
  | some existing => { existing with address := tgt.address, group := tgt.group }
  | none => freshFromConfig tgt

/-- `UpdateTargets` (`store.go` lines 108-129): rebuild the target table from
the configured list, then replace it wholesale. -/
def UpdateTargets (s : StoreImpl) (targets : List TargetConfig) : StoreImpl :=
  { s with
    targets := targets.foldl
      (fun acc tgt => setTarget acc tgt.name (mergeTarget s.targets tgt)) [] }

/-- `NewStore` (`store.go` lines 27-36). -/
def NewStore (targets : List TargetConfig) (timeout : Int) : StoreImpl :=
  UpdateTargets
    { targets := [], historySize := defaultHistorySize,
      downThreshold := defaultDownThreshold, timeout := timeout } targets

/-- `GetSnapshot` (`store.go` lines 96-105); the Go version deep-copies, which
in the functional model is the identity embedding of the table into a list. -/
def GetSnapshot (s : StoreImpl) : List TargetStatus :=
  s.targets.map (fun p => p.2)

/-- `GetTargetStatus` (`store.go` lines 132-141). -/
def GetTargetStatus (s : StoreImpl) (name : String) : Option TargetStatus :=
  lookupTarget s.targets name

/-- Modelled from the spec: the store operation `UpdateTimeout` is invoked by
the reload path (`store.UpdateTimeout(newCfg.Global.Timeout)` in `main.go`)
and appears in the `state.Store` interface stubs of the metrics tests, but its
body on `StoreImpl` is not among the source files.  The spec states that it
`swaps the classification timeout atomically; subsequent classifications use
the new value`. -/
def UpdateTimeout (s : StoreImpl) (timeout : Int) : StoreImpl :=
  { s with timeout := timeout }

/-- One store operation of the kinds quantified over by the history
invariant: a probe-result update, a reconfiguration, or a snapshot read. -/
inductive StoreOp
  | update (name : String) (result : Result) (now : Int)
  | updateTargetsOp (targets : List TargetConfig)
  | snapshotOp

/-- Apply one operation to the store; `GetSnapshot` does not change state. -/
def applyOp (s : StoreImpl) : StoreOp → StoreImpl
  | StoreOp.update name result now => UpdateResult s name result now
  | StoreOp.updateTargetsOp targets => UpdateTargets s targets
  | StoreOp.snapshotOp => s

/-- Run a sequence of store operations. -/
def runOps (s : StoreImpl) (ops : List StoreOp) : StoreImpl :=
  ops.foldl applyOp s

/-- The history samples a single operation can contribute: exactly the sample
recorded by a successful probe update, nothing otherwise. -/
def opSuccessSamples : StoreOp → List RTTPoint
  | StoreOp.update _ result now =>
    if result.success then [{ time := now, rtt := result.rtt }] else []
  | _ => []

/-- All history samples a sequence of operations can contribute. -/
def opsSamples (ops : List StoreOp) : List RTTPoint :=
  ops.flatMap opSuccessSamples

/-- ASCII lowering, the fragment of `strings.ToLower` exercised by the
permission-message patterns (which are pure ASCII). -/
def asciiToLower (c : Char) : Char :=
  if 'A' ≤ c ∧ c ≤ 'Z' then Char.ofNat (c.toNat + 32) else c

/-- Whether `needle` is an initial segment of `haystack`. -/
def leadsChars : List Char → List Char → Bool
  | [], _ => true
  | _ :: _, [] => false
  | a :: as, b :: bs => (a == b) && leadsChars as bs

/-- `strings.Contains(haystack, needle)`: the needle occurs as a contiguous
segment of the haystack. -/
def containsSub : List Char → List Char → Bool
  | needle, [] => needle.isEmpty
  | needle, c :: rest => leadsChars needle (c :: rest) || containsSub needle rest

/-- `isPermissionError` (fallback pinger source, lines 32-41): true for errors
related to `os.ErrPermission` or `syscall.EPERM`, or whose lowered message
contains one of the two permission phrases. -/
def isPermissionError : Option GoError → Bool
  | none => false
  | some e =>
    if e.isErrPermission || e.isEPERM then true
    else
      let msg := e.message.map asciiToLower
      containsSub (String.toList ("operation not permitted")) msg ||
        containsSub (String.toList ("permission denied")) msg

/-- A probe engine as used with stub pingers: a pure function from address and
timeout to a result (the `context.Context` threaded through `Ping` is not
consulted by the fallback logic and is omitted). -/
def Pinger : Type := String → Int → Result

/-- `FallbackPinger.Ping` (fallback pinger source, lines 24-30), instrumented
with a flag recording whether the secondary pinger was invoked: the primary
result is returned untouched unless it is a failure with a permission error,
in which case the secondary's result is returned. -/
def FallbackPing (primary secondary : Pinger) (addr : String) (timeout : Int) :
    Result × Bool :=
  let result := primary addr timeout
  if result.success || !(isPermissionError result.error) then (result, false)
  else (secondary addr timeout, true)

/-- The mutable part of `ICMPPinger` (ICMP pinger source, lines 19-22):
the per-process identifier and the engine-scoped sequence counter
(`seq` is a `uint32`, kept `< 2^32`). -/
structure ICMPPinger where
  id : Nat
  seq : Nat
deriving DecidableEq

/-- `NewICMPPinger` (ICMP pinger source, lines 25-27):
`id` is `os.Getpid() & 0xffff`. -/
def NewICMPPinger (pid : Nat) : ICMPPinger :=
  { id := pid &&& 0xffff, seq := 0 }

/-- What the receive loop of `ICMPPinger.Ping` observes about one packet
returned by `conn.ReadFrom`: whether a peer was attached, whether
`icmp.ParseMessage` succeeded, whether the type is the expected echo-reply
type, whether the body is an `*icmp.Echo`, and the identifier and sequence
carried in that body. -/
structure RecvPacket where
  hasPeer : Bool
  parseOk : Bool
  isReplyType : Bool
  isEchoBody : Bool
  id : Nat
  seq : Nat
deriving DecidableEq

/-- One iteration input of the receive loop: either `ReadFrom` fails (deadline
hit or socket error; both abort the probe with a failure) or a packet
arrives. -/
inductive RecvEvent
  | readFail
  | recv (p : RecvPacket)
deriving DecidableEq

/-- The acceptance test of the receive loop (ICMP pinger source, lines
87-104): a packet produces a success exactly when it has a peer, parses as
ICMP, is an echo reply, carries an echo body, and that body's identifier and
sequence equal the ones sent on this probe. -/
def packetMatches (engineId sentSeq : Nat) (p : RecvPacket) : Bool :=
  p.hasPeer && p.parseOk && p.isReplyType && p.isEchoBody &&
    (p.id == engineId) && (p.seq == sentSeq)

/-- The receive loop (ICMP pinger source, lines 74-107): return success on
the first matching packet, keep reading past non-matching ones, fail on a
read error; an exhausted event list stands for the deadline expiring on the
next blocking read. -/
def receiveLoop (engineId sentSeq : Nat) : List RecvEvent → Bool
  | [] => false
  | RecvEvent.readFail :: _ => false
  | RecvEvent.recv p :: rest =>
    if packetMatches engineId sentSeq p then true
    else receiveLoop engineId sentSeq rest

/-- `2^32`, the modulus of the `uint32` sequence counter. -/
def uint32Mod : Nat := 4294967296

/-- `ICMPPinger.Ping` (ICMP pinger source, lines 30-108) restricted to the
identifier/sequence discipline: `atomic.AddUint32(&p.seq, 1)` increments the
engine counter (wrapping at 2^32) and the incremented value is the sequence
sent; the returned triple is the engine after the probe, the sequence sent,
and whether the receive loop succeeded on the given events. -/
def icmpPing (p : ICMPPinger) (events : List RecvEvent) :
    ICMPPinger × Nat × Bool :=
  let seq := (p.seq + 1) % uint32Mod
  ({ p with seq := seq }, seq, receiveLoop p.id seq events)

/-- The two platform classes distinguished by `pingArgs`
(`internal/ping/external.go` lines 69-84). -/
inductive GOOS
  | darwin
  | linuxOrOther
deriving DecidableEq

/-- `maxInt` (`external.go` lines 98-103). -/
def maxIntGo (a b : Int) : Int := if a > b then a else b

/-- `timeout.Milliseconds()`: nanoseconds divided by 10^6, truncated toward
zero. -/
def durationMilliseconds (d : Int) : Int := Int.tdiv d 1000000

/-- `int(timeout.Seconds() + 0.5)` (`external.go` line 81): `Seconds` divides
the nanosecond count by 10^9 in `float64` and `int` truncates toward zero;
modelled exactly, for the magnitudes involved this is `⌊d/10^9 + 1/2⌋`,
i.e. truncating division of `d + 5·10^8` by `10^9`. -/
def timeoutSecGo (d : Int) : Int := Int.tdiv (d + 500000000) 1000000000

/-- `pingArgs` (`external.go` lines 69-84).  `isIPv6Addr` stands for the
result of the `isIPv6(addr)` resolution, which involves the OS resolver and
is taken as an input here. -/
def pingArgs (goos : GOOS) (isIPv6Addr : Bool) (addr : String) (timeout : Int) :
    List String :=
  match goos with
  | GOOS.darwin =>
    if isIPv6Addr then ["-n", "-c", "1", addr]
    else
      ["-n", "-c", "1", "-W",
        toString (maxIntGo 100 (durationMilliseconds timeout)), addr]
  | GOOS.linuxOrOther =>
    ["-n", "-c", "1", "-W", toString (maxIntGo 1 (timeoutSecGo timeout)), addr]

/-- The wait `runTargetLoop` uses before the next probe
(`internal/scheduler/scheduler.go` lines 164-167): the configured interval,
replaced by `time.Second` (10^9 ns) when it is not positive. -/
def loopInterval (configured : Int) : Int :=
  if configured ≤ 0 then 1000000000 else configured

/-- First `strings.ReplaceAll` pass of `escapeLabel`: backslash doubled. -/
def escapeBackslash (c : Char) : List Char :=
  if c = '\\' then ['\\', '\\'] else [c]

/-- Second `strings.ReplaceAll` pass of `escapeLabel`: double quote gets a
backslash prefix. -/
def escapeQuote (c : Char) : List Char :=
  if c = '"' then ['\\', '"'] else [c]

/-- `escapeLabel` (`internal/metrics/metrics.go` lines 95-99): replace every
backslash by a doubled backslash, then prefix every double quote with a
backslash.  Both patterns are single characters, so the two
`strings.ReplaceAll` passes are character-wise. -/
def escapeLabel (value : List Char) : List Char :=
  (value.flatMap escapeBackslash).flatMap escapeQuote

/-- One character of the Go `%q` verb's string escaping, restricted to the
printable ASCII range (the only characters these claims exercise): backslash
and double quote receive a backslash prefix, everything else is copied. -/
def goQuoteChar (c : Char) : List Char :=
  if c = '\\' then ['\\', '\\'] else if c = '"' then ['\\', '"'] else [c]

/-- The label value `writePerTarget` (`metrics.go` lines 76-93) actually
writes between the double quotes: `fmt.Sprintf` with verb `%q` applied to the
output of `escapeLabel`. -/
def writtenLabelValue (value : List Char) : List Char :=
  (escapeLabel value).flatMap goQuoteChar

/-- Unescaping of one escaped character per the Prometheus text exposition
rules: `\\n` denotes a newline, `\\\\` a backslash, `\\\"` a double quote. -/
def promUnescapeChar (c : Char) : Char :=
  if c = 'n' then Char.ofNat 10 else c

/-- A compliant Prometheus parser's unescaping of a label value: a backslash
followed by `\\`, `\"` or `n` decodes to one character, everything else is
copied. -/
def promUnescape : List Char → List Char
  | [] => []
  | [c] => [c]
  | c1 :: c2 :: rest =>
    if c1 = '\\' ∧ (c2 = '\\' ∨ c2 = '"' ∨ c2 = 'n') then
      promUnescapeChar c2 :: promUnescape rest
    else c1 :: promUnescape (c2 :: rest)

/-- The recent average RTT exactly as the spec words it (for comparison with
the code): the arithmetic mean — over the rationals, no truncation — of the
last `min(10, |history|)` samples, or `last_rtt` when history is empty. -/
def specRecentAvgRTT (histRtts : List Int) (lastRtt : Int) : ℚ :=
  if histRtts = [] then (lastRtt : ℚ)
  else
    let window := histRtts.drop (histRtts.length - 10)
    ((window.map (fun r => (r : ℚ))).sum) / (window.length : ℚ)

/-- The timeout in whole seconds rounded up with a minimum of 1, exactly as
the claim words it (for comparison with the code). -/
def specTimeoutSecRoundUp (d : Int) : Int :=
  max 1 ((d + 999999999) / 1000000000)

/-- Classification of a target from its post-update state, with the integer
arithmetic the code actually performs: on a success, the recent average is
the truncating-division mean of the last `min(10, |history|)` samples (with
`last_rtt` substituted when the history window is empty or that mean is not
positive), and the status is OK when it is at most the truncated quarter of
the timeout, WARN otherwise; on a failure, DOWN when at least three
consecutive failures, WARN otherwise. -/
def classifyLatest (timeout : Int) (lastSuccess : Bool) (histRtts : List Int)
    (lastRtt : Int) (consecutiveNG : Int) : Status :=
  if lastSuccess then
    let window := histRtts.drop (histRtts.length - 10)
    let avg :=
      if window = [] then lastRtt
      else
        let m := Int.tdiv window.sum window.length
        if m ≤ 0 then lastRtt else m
    if avg ≤ Int.tdiv timeout 4 then Status.ok else Status.warn
  else if 3 ≤ consecutiveNG then Status.down else Status.warn

lemma string_beq_false {a b : String} (h : ¬ a = b) : (a == b) = false :=
  beq_eq_false_iff_ne.mpr h

lemma find?_map_set (ts : List (String × TargetStatus)) (name : String)
    (t : TargetStatus) :
    (ts.map (fun p => if p.1 == name then (name, t) else p)).find?
        (fun p => p.1 == name) =
      (ts.find? (fun p => p.1 == name)).map (fun _ => (name, t)) := by
  induction ts with
  | nil => rfl
  | cons p rest ih =>
    cases hp : (p.1 == name) with
    | true =>
      have h1 : (if (p.1 == name) = true then (name, t) else p) = (name, t) :=
        if_pos hp
      rw [List.map_cons, h1]
      simp only [List.find?, beq_self_eq_true, hp]
      rfl
    | false =>
      have h1 : (if (p.1 == name) = true then (name, t) else p) = p :=
        if_neg (by simp [hp])
      rw [List.map_cons, h1]
      simp only [List.find?, hp]
      exact ih

lemma find?_map_set_ne (ts : List (String × TargetStatus)) (name m : String)
    (t : TargetStatus) (h : m ≠ name) :
    (ts.map (fun p => if p.1 == name then (name, t) else p)).find?
        (fun p => p.1 == m) =
      ts.find? (fun p => p.1 == m) := by
  have hnm : (name == m) = false := string_beq_false (Ne.symm h)
  induction ts with
  | nil => rfl
  | cons p rest ih =>
    cases hp : (p.1 == name) with
    | true =>
      have hpeq : p.1 = name := by simpa using hp
      have h1 : (if (p.1 == name) = true then (name, t) else p) = (name, t) :=
        if_pos hp
      rw [List.map_cons, h1]
      simp only [List.find?, hpeq, hnm]
      exact ih
    | false =>
      have h1 : (if (p.1 == name) = true then (name, t) else p) = p :=
        if_neg (by simp [hp])
      rw [List.map_cons, h1]
      cases hq : (p.1 == m) with
      | true => simp only [List.find?, hq]
      | false =>
        simp only [List.find?, hq]
        exact ih

lemma lookupTarget_setTarget_self (ts : List (String × TargetStatus))
    (name : String) (t : TargetStatus) :
    lookupTarget (setTarget ts name t) name = some t := by
  unfold lookupTarget setTarget
  cases hs : (ts.find? (fun p => p.1 == name)).isSome with
  | true =>
    rcases Option.isSome_iff_exists.mp hs with ⟨p, hp⟩
    rw [if_pos rfl, find?_map_set, hp]
    rfl
  | false =>
    have hnone : ts.find? (fun p => p.1 == name) = none :=
      Option.not_isSome_iff_eq_none.mp (by simp [hs])
    rw [if_neg (by simp), List.find?_append, hnone]
    simp [List.find?]

lemma lookupTarget_setTarget_ne (ts : List (String × TargetStatus))
    (name m : String) (t : TargetStatus) (h : m ≠ name) :
    lookupTarget (setTarget ts name t) m = lookupTarget ts m := by
  unfold lookupTarget setTarget
  cases hs : (ts.find? (fun p => p.1 == name)).isSome with
  | true =>
    rw [if_pos rfl, find?_map_set_ne ts name m t h]
  | false =>
    have hnm : (name == m) = false := string_beq_false (Ne.symm h)
    rw [if_neg (by simp), List.find?_append]
    have h2 : List.find? (fun p => p.1 == m) [(name, t)] = none := by
      simp only [List.find?, hnm]
    rw [h2]
    simp

lemma lookupTarget_UpdateResult_self (s : StoreImpl) (name : String)
    (result : Result) (now : Int) :
    lookupTarget (UpdateResult s name result now).targets name =
      some (updatedTarget s name result now) := by
  unfold UpdateResult
  exact lookupTarget_setTarget_self _ _ _

lemma lookupTarget_UpdateResult_ne (s : StoreImpl) (name m : String)
    (result : Result) (now : Int) (h : m ≠ name) :
    lookupTarget (UpdateResult s name result now).targets m =
      lookupTarget s.targets m := by
  unfold UpdateResult
  exact lookupTarget_setTarget_ne _ _ _ _ h

lemma calculateRecentAvgRTT_eq_window (hist : List RTTPoint) (hne : hist ≠ []) :
    calculateRecentAvgRTT hist thresholdDataPointCount =
      Int.tdiv ((hist.map (fun p => p.rtt)).drop (hist.length - 10)).sum
        (((hist.map (fun p => p.rtt)).drop (hist.length - 10)).length : Int) := by
  have hlen : 1 ≤ hist.length := by
    cases hist with
    | nil => exact absurd rfl hne
    | cons a l => simp
  have hempty : hist.isEmpty = false := by
    cases hist with
    | nil => exact absurd rfl hne
    | cons a l => rfl
  have hmax : max ((hist.length : Int) - thresholdDataPointCount) 0 =
      ((hist.length - 10 : Nat) : Int) := by
    unfold thresholdDataPointCount
    omega
  have hdroplen : ((hist.map (fun p => p.rtt)).drop (hist.length - 10)).length =
      hist.length - (hist.length - 10) := by
    simp [List.length_drop]
  simp only [calculateRecentAvgRTT, hempty, Bool.false_eq_true, if_false, hmax,
    Int.toNat_natCast]
  have hused : (hist.length : Int) - ((hist.length - 10 : Nat) : Int) ≠ 0 := by
    omega
  rw [if_neg hused, ← List.map_drop]
  have hcount : (hist.length : Int) - ((hist.length - 10 : Nat) : Int) =
      (((hist.map (fun p => p.rtt)).drop (hist.length - 10)).length : Int) := by
    rw [hdroplen]
    omega
  rw [hcount, ← List.map_drop]

lemma updatedTarget_status (s : StoreImpl) (name : String) (result : Result)
    (now : Int) (hdt : s.downThreshold = 3) :
    (updatedTarget s name result now).status =
      classifyLatest s.timeout result.success
        ((updatedTarget s name result now).history.map (fun p => p.rtt))
        (updatedTarget s name result now).lastRTT
        (updatedTarget s name result now).consecutiveNG := by
  unfold updatedTarget classifyLatest
  cases hsucc : result.success with
  | false => simp [hdt]
  | true =>
    simp only [if_true]
    by_cases hne :
      appendHistory s.historySize (prevTarget s name).history
        { time := now, rtt := result.rtt } = []
    · simp [hne, calculateRecentAvgRTT]
    · rw [calculateRecentAvgRTT_eq_window _ hne]
      have hlen : 1 ≤ (appendHistory s.historySize (prevTarget s name).history
          { time := now, rtt := result.rtt }).length := by
        cases h : appendHistory s.historySize (prevTarget s name).history
            { time := now, rtt := result.rtt } with
        | nil => exact absurd h hne
        | cons a l => simp
      have hwin : (((appendHistory s.historySize (prevTarget s name).history
            { time := now, rtt := result.rtt }).map (fun p => p.rtt)).drop
            ((appendHistory s.historySize (prevTarget s name).history
              { time := now, rtt := result.rtt }).length - 10)) ≠ [] := by
        intro hcontra
        have := congrArg List.length hcontra
        simp [List.length_drop] at this
        omega
      simp only [List.length_map]
      rw [if_neg hwin]
      simp

lemma lookupTarget_buildUpdated (old : List (String × TargetStatus))
    (U : List TargetConfig) (init : List (String × TargetStatus)) (m : String) :
    lookupTarget
        (U.foldl (fun acc tgt => setTarget acc tgt.name (mergeTarget old tgt))
          init) m =
      ((U.filter (fun tgt => tgt.name == m)).getLast?).elim
        (lookupTarget init m) (fun tgt => some (mergeTarget old tgt)) := by
  induction U using List.reverseRecOn generalizing init with
  | nil => rfl
  | append_singleton xs x ih =>
    rw [List.foldl_append, List.foldl_cons, List.foldl_nil, List.filter_append]
    cases hx : (x.name == m) with
    | true =>
      have hxm : x.name = m := by simpa using hx
      have hfil : List.filter (fun tgt => tgt.name == m) [x] = [x] := by
        simp [List.filter, hx]
      rw [hfil, List.getLast?_concat]
      subst hxm
      exact lookupTarget_setTarget_self _ _ _
    | false =>
      have hxm : ¬ m = x.name := by
        intro he
        simp [he] at hx
      have hfil : List.filter (fun tgt => tgt.name == m) [x] = [] := by
        simp [List.filter, hx]
      rw [hfil, List.append_nil,
        lookupTarget_setTarget_ne _ _ _ _ hxm]
      exact ih init

lemma lookupTarget_UpdateTargets (s : StoreImpl) (U : List TargetConfig)
    (m : String) :
    lookupTarget (UpdateTargets s U).targets m =
      ((U.filter (fun tgt => tgt.name == m)).getLast?).elim none
        (fun tgt => some (mergeTarget s.targets tgt)) := by
  unfold UpdateTargets
  exact lookupTarget_buildUpdated s.targets U [] m

lemma filter_name_of_nodup (U : List TargetConfig) (tgt : TargetConfig)
    (hnd : (U.map (fun t => t.name)).Nodup) (hm : tgt ∈ U) :
    U.filter (fun q => q.name == tgt.name) = [tgt] := by
  induction U with
  | nil => cases hm
  | cons h rest ih =>
    rw [List.map_cons, List.nodup_cons] at hnd
    rcases List.mem_cons.mp hm with heq | hmem
    · subst heq
      rw [List.filter_cons, if_pos (by simp)]
      have hrest : rest.filter (fun q => q.name == tgt.name) = [] := by
        rw [List.filter_eq_nil_iff]
        intro q hq hb
        have hqe : q.name = tgt.name := by simpa using hb
        exact hnd.1 (hqe ▸ List.mem_map_of_mem (fun t => t.name) hq)
      rw [hrest]
    · have hneq : ¬ h.name = tgt.name := by
        intro he
        exact hnd.1 (he ▸ List.mem_map_of_mem (fun t => t.name) hmem)
      rw [List.filter_cons, if_neg (by simp [hneq])]
      exact ih hnd.2 hmem

lemma mem_of_mem_appendHistory {hs : Int} {h : List RTTPoint}
    {pt q : RTTPoint} (hq : q ∈ appendHistory hs h pt) : q ∈ h ∨ q = pt := by
  unfold appendHistory at hq
  by_cases h0 : hs ≤ 0
  · rw [if_pos h0] at hq
    exact Or.inl hq
  · rw [if_neg h0] at hq
    by_cases h1 : (h.length : Int) < hs
    · rw [if_pos h1] at hq
      rcases List.mem_append.mp hq with hin | hin
      · exact Or.inl hin
      · exact Or.inr (by simpa using hin)
    · rw [if_neg h1] at hq
      rcases List.mem_append.mp hq with hin | hin
      · exact Or.inl (List.mem_of_mem_drop hin)
      · exact Or.inr (by simpa using hin)

lemma appendHistory_length_le {h : List RTTPoint} {pt : RTTPoint}
    (hb : h.length ≤ 100) : (appendHistory 100 h pt).length ≤ 100 := by
  unfold appendHistory
  rw [if_neg (by omega)]
  by_cases h1 : (h.length : Int) < 100
  · rw [if_pos h1]
    simp only [List.length_append, List.length_singleton]
    omega
  · rw [if_neg h1]
    simp only [List.length_append, List.length_singleton, List.length_drop]
    omega

/-- The bounded-history part of the reachable-state invariant: the store is
configured with the default capacity and every target's history fits it. -/
def histInv (s : StoreImpl) : Prop :=
  s.historySize = 100 ∧
    ∀ m t, lookupTarget s.targets m = some t → t.history.length ≤ 100

/-- Every history sample of every target comes from the allowed list. -/
def historiesFrom (s : StoreImpl) (allowed : List RTTPoint) : Prop :=
  ∀ m t, lookupTarget s.targets m = some t → ∀ pt ∈ t.history, pt ∈ allowed

lemma updatedTarget_history_success (s : StoreImpl) (name : String)
    (result : Result) (now : Int) (hsucc : result.success = true) :
    (updatedTarget s name result now).history =
      appendHistory s.historySize (prevTarget s name).history
        { time := now, rtt := result.rtt } := by
  unfold updatedTarget
  simp [hsucc]

lemma updatedTarget_history_failure (s : StoreImpl) (name : String)
    (result : Result) (now : Int) (hsucc : result.success = false) :
    (updatedTarget s name result now).history = (prevTarget s name).history := by
  unfold updatedTarget
  simp [hsucc]

lemma mem_prevTarget_history (s : StoreImpl) (name : String) {pt : RTTPoint}
    (hpt : pt ∈ (prevTarget s name).history) :
    ∃ t, lookupTarget s.targets name = some t ∧ pt ∈ t.history := by
  unfold prevTarget at hpt
  cases hl : lookupTarget s.targets name with
  | none =>
    rw [hl] at hpt
    simp [freshTarget] at hpt
  | some t =>
    rw [hl] at hpt
    exact ⟨t, rfl, hpt⟩

lemma prevTarget_history_bound (s : StoreImpl)
    (hb : ∀ m t, lookupTarget s.targets m = some t → t.history.length ≤ 100)
    (name : String) : (prevTarget s name).history.length ≤ 100 := by
  unfold prevTarget
  cases hl : lookupTarget s.targets name with
  | none => simp [freshTarget]
  | some t => simpa using hb name t hl

lemma histInv_UpdateResult (s : StoreImpl) (name : String) (result : Result)
    (now : Int) (hi : histInv s) : histInv (UpdateResult s name result now) := by
  obtain ⟨hhs, hb⟩ := hi
  constructor
  · exact hhs
  · intro m t hl
    by_cases hm : m = name
    · subst hm
      rw [lookupTarget_UpdateResult_self] at hl
      cases hl
      cases hsucc : result.success with
      | true =>
        rw [updatedTarget_history_success s m result now hsucc, hhs]
        exact appendHistory_length_le (prevTarget_history_bound s hb m)
      | false =>
        rw [updatedTarget_history_failure s m result now hsucc]
        exact prevTarget_history_bound s hb m
    · rw [lookupTarget_UpdateResult_ne s name m result now hm] at hl
      exact hb m t hl

lemma histInv_UpdateTargets (s : StoreImpl) (targets : List TargetConfig)
    (hi : histInv s) : histInv (UpdateTargets s targets) := by
  obtain ⟨hhs, hb⟩ := hi
  constructor
  · exact hhs
  · intro m t hl
    rw [lookupTarget_UpdateTargets] at hl
    cases hx : (targets.filter (fun tgt => tgt.name == m)).getLast? with
    | none => rw [hx] at hl; cases hl
    | some tgt =>
      rw [hx] at hl
      cases hl
      unfold mergeTarget
      cases hl2 : lookupTarget s.targets tgt.name with
      | none => simp [freshFromConfig, freshTarget]
      | some existing => simpa using hb tgt.name existing hl2

lemma historiesFrom_applyOp (s : StoreImpl) (op : StoreOp)
    (allowed : List RTTPoint) (hf : historiesFrom s allowed) :
    historiesFrom (applyOp s op) (allowed ++ opSuccessSamples op) := by
  cases op with
  | snapshotOp =>
    intro m t hl pt hpt
    exact List.mem_append_left _ (hf m t hl pt hpt)
  | updateTargetsOp targets =>
    intro m t hl pt hpt
    rw [show applyOp s (StoreOp.updateTargetsOp targets) =
      UpdateTargets s targets from rfl, lookupTarget_UpdateTargets] at hl
    cases hx : (targets.filter (fun tgt => tgt.name == m)).getLast? with
    | none => rw [hx] at hl; cases hl
    | some tgt =>
      rw [hx] at hl
      cases hl
      unfold mergeTarget at hpt
      cases hl2 : lookupTarget s.targets tgt.name with
      | none =>
        rw [hl2] at hpt
        simp [freshFromConfig, freshTarget] at hpt
      | some existing =>
        rw [hl2] at hpt
        exact List.mem_append_left _ (hf tgt.name existing hl2 pt (by simpa using hpt))
  | update name result now =>
    intro m t hl pt hpt
    rw [show applyOp s (StoreOp.update name result now) =
      UpdateResult s name result now from rfl] at hl
    by_cases hm : m = name
    · subst hm
      rw [lookupTarget_UpdateResult_self] at hl
      cases hl
      cases hsucc : result.success with
      | false =>
        rw [updatedTarget_history_failure s m result now hsucc] at hpt
        obtain ⟨t0, hl0, hpt0⟩ := mem_prevTarget_history s m hpt
        exact List.mem_append_left _ (hf m t0 hl0 pt hpt0)
      | true =>
        rw [updatedTarget_history_success s m result now hsucc] at hpt
        rcases mem_of_mem_appendHistory hpt with hin | heq
        · obtain ⟨t0, hl0, hpt0⟩ := mem_prevTarget_history s m hin
          exact List.mem_append_left _ (hf m t0 hl0 pt hpt0)
        · refine List.mem_append_right _ ?_
          simp [opSuccessSamples, hsucc, heq]
    · rw [lookupTarget_UpdateResult_ne s name m result now hm] at hl
      exact List.mem_append_left _ (hf m t hl pt hpt)

lemma histInv_applyOp (s : StoreImpl) (op : StoreOp) (hi : histInv s) :
    histInv (applyOp s op) := by
  cases op with
  | snapshotOp => exact hi
  | updateTargetsOp targets => exact histInv_UpdateTargets s targets hi
  | update name result now => exact histInv_UpdateResult s name result now hi

lemma histInv_runOps (ops : List StoreOp) (s : StoreImpl) (hi : histInv s) :
    histInv (runOps s ops) := by
  induction ops generalizing s with
  | nil => exact hi
  | cons op rest ih => exact ih (applyOp s op) (histInv_applyOp s op hi)

lemma historiesFrom_runOps (ops : List StoreOp) (s : StoreImpl)
    (allowed : List RTTPoint) (hf : historiesFrom s allowed) :
    historiesFrom (runOps s ops) (allowed ++ opsSamples ops) := by
  induction ops generalizing s allowed with
  | nil =>
    intro m t hl pt hpt
    exact List.mem_append_left _ (hf m t hl pt hpt)
  | cons op rest ih =>
    intro m t hl pt hpt
    have h2 := ih (applyOp s op) (allowed ++ opSuccessSamples op)
      (historiesFrom_applyOp s op allowed hf)
    have h3 := h2 m t hl pt hpt
    simpa [opsSamples, List.append_assoc] using h3

lemma lookupTarget_NewStore (targets : List TargetConfig) (timeout : Int)
    (m : String) (t : TargetStatus)
    (hl : lookupTarget (NewStore targets timeout).targets m = some t) :
    t.history = [] := by
  rw [show NewStore targets timeout =
    UpdateTargets
      { targets := [], historySize := defaultHistorySize,
        downThreshold := defaultDownThreshold, timeout := timeout } targets
    from rfl, lookupTarget_UpdateTargets] at hl
  cases hx : (targets.filter (fun tgt => tgt.name == m)).getLast? with
  | none => rw [hx] at hl; cases hl
  | some tgt =>
    rw [hx] at hl
    cases hl
    rfl

lemma histInv_NewStore (targets : List TargetConfig) (timeout : Int) :
    histInv (NewStore targets timeout) := by
  constructor
  · rfl
  · intro m t hl
    rw [lookupTarget_NewStore targets timeout m t hl]
    simp

lemma historiesFrom_NewStore (targets : List TargetConfig) (timeout : Int) :
    historiesFrom (NewStore targets timeout) [] := by
  intro m t hl pt hpt
  rw [lookupTarget_NewStore targets timeout m t hl] at hpt
  cases hpt

lemma receiveLoop_eq_true_iff (engineId sentSeq : Nat)
    (events : List RecvEvent) :
    receiveLoop engineId sentSeq events = true ↔
      ∃ pre p post, events = pre ++ RecvEvent.recv p :: post ∧
        packetMatches engineId sentSeq p = true ∧
        ∀ e ∈ pre, ∃ q, e = RecvEvent.recv q ∧
          packetMatches engineId sentSeq q = false := by
  induction events with
  | nil =>
    constructor
    · intro h
      simp [receiveLoop] at h
    · rintro ⟨pre, p, post, habs, -, -⟩
      cases pre with
      | nil => simp at habs
      | cons e0 pre' => simp at habs
  | cons e rest ih =>
    cases e with
    | readFail =>
      constructor
      · intro h
        simp [receiveLoop] at h
      · rintro ⟨pre, p, post, habs, hmatch, hpre⟩
        cases pre with
        | nil => simp at habs
        | cons e0 pre' =>
          injection habs with h1 h2
          obtain ⟨q, hq, -⟩ := hpre e0 (List.mem_cons_self e0 pre')
          rw [hq] at h1
          cases h1
    | recv p =>
      cases hp : packetMatches engineId sentSeq p with
      | true =>
        constructor
        · intro _
          exact ⟨[], p, rest, rfl, hp, by simp⟩
        · intro _
          simp [receiveLoop, hp]
      | false =>
        rw [show receiveLoop engineId sentSeq (RecvEvent.recv p :: rest) =
          receiveLoop engineId sentSeq rest from by simp [receiveLoop, hp]]
        rw [ih]
        constructor
        · rintro ⟨pre, p', post, hsplit, hmatch, hpre⟩
          refine ⟨RecvEvent.recv p :: pre, p', post, by rw [hsplit]; rfl,
            hmatch, ?_⟩
          intro e he
          rcases List.mem_cons.mp he with he0 | hein
          · exact ⟨p, he0, hp⟩
          · exact hpre e hein
        · rintro ⟨pre, p', post, hsplit, hmatch, hpre⟩
          cases pre with
          | nil =>
            injection hsplit with h1 h2
            injection h1 with hpp
            rw [← hpp, hp] at hmatch
            cases hmatch
          | cons e0 pre' =>
            injection hsplit with h1 h2
            exact ⟨pre', p', post, h2, hmatch,
              fun e he => hpre e (List.mem_cons_of_mem e0 he)⟩

lemma goQuoteChar_ne_nil (c : Char) : goQuoteChar c ≠ [] := by
  unfold goQuoteChar
  by_cases h1 : c = '\\'
  · simp [h1]
  · by_cases h2 : c = '"'
    · simp [h1, h2]
    · simp [h1, h2]

lemma escapeLabel_eq_flatMap (value : List Char) :
    escapeLabel value = value.flatMap goQuoteChar := by
  induction value with
  | nil => rfl
  | cons c rest ih =>
    unfold escapeLabel
    rw [List.flatMap_cons, List.flatMap_append, List.flatMap_cons]
    have hhead : (escapeBackslash c).flatMap escapeQuote = goQuoteChar c := by
      by_cases h1 : c = '\\'
      · simp [escapeBackslash, escapeQuote, goQuoteChar, h1]
      · by_cases h2 : c = '"'
        · simp [escapeBackslash, escapeQuote, goQuoteChar, h1, h2]
        · simp [escapeBackslash, escapeQuote, goQuoteChar, h1, h2]
    rw [hhead]
    unfold escapeLabel at ih
    rw [ih]

lemma promUnescape_flatMap (value : List Char) :
    promUnescape (value.flatMap goQuoteChar) = value := by
  induction value with
  | nil => rfl
  | cons c rest ih =>
    rw [List.flatMap_cons]
    by_cases h1 : c = '\\'
    · subst h1
      rw [show goQuoteChar '\\' = ['\\', '\\'] from rfl]
      simpa [promUnescape, promUnescapeChar] using ih
    · by_cases h2 : c = '"'
      · subst h2
        rw [show goQuoteChar '"' = ['\\', '"'] from rfl]
        simpa [promUnescape, promUnescapeChar] using ih
      · rw [show goQuoteChar c = [c] from by simp [goQuoteChar, h1, h2]]
        cases hl : rest.flatMap goQuoteChar with
        | nil =>
          have hrest : rest = [] := by
            cases rest with
            | nil => rfl
            | cons r rs =>
              rw [List.flatMap_cons] at hl
              exact absurd (List.append_eq_nil.mp hl).1 (goQuoteChar_ne_nil r)
          subst hrest
          rfl
        | cons d l' =>
          rw [List.cons_append, List.nil_append]
          rw [show promUnescape (c :: d :: l') =
            c :: promUnescape (d :: l') from by
              rw [promUnescape]
              rw [if_neg (by simp [h1])]]
          rw [← hl, ih]

lemma classifyLatest_success_ne_down (timeout : Int) (histRtts : List Int)
    (lastRtt ng : Int) :
    classifyLatest timeout true histRtts lastRtt ng ≠ Status.down := by
  have hgen : ∀ avg : Int,
      (if avg ≤ Int.tdiv timeout 4 then Status.ok else Status.warn) ≠
        Status.down := by
    intro avg
    split
    · simp
    · simp
  unfold classifyLatest
  rw [if_pos rfl]
  dsimp only
  exact hgen _

lemma classifyLatest_failure_down_iff (timeout : Int) (histRtts : List Int)
    (lastRtt ng : Int) :
    (classifyLatest timeout false histRtts lastRtt ng = Status.down ↔
      3 ≤ ng) := by
  unfold classifyLatest
  by_cases h : (3 : Int) ≤ ng
  · simp [h]
  · simp [h]

/-- A one-target store used to instantiate the store theorems: one target
named `t`, classification timeout 100 ms. -/
def wStore : StoreImpl := NewStore [⟨"t", "10.0.0.1", "", []⟩] 100000000

/-- A successful 20 ms probe result. -/
def wSuccess : Result := { rtt := 20000000, success := true, error := none }

/-- The store of the C1 counterexample: one target, timeout 100 ms, then two
successful probes with RTTs 25 ms and 25 ms + 1 ns. -/
def c1Store : StoreImpl :=
  UpdateResult (UpdateResult wStore "t" ⟨25000000, true, none⟩ 0)
    "t" ⟨25000001, true, none⟩ 5

/-- Claim C1 is corrected: the code classifies with truncating integer
(nanosecond) division, not with the exact arithmetic mean.  After two
successful probes of 25 ms and 25 ms + 1 ns under timeout 100 ms the exact
mean of the history is 25.0000005 ms, strictly above `T/4 = 25 ms`, so the
claim as stated requires WARN; the code truncates the mean to 25 ms and
reports OK. -/
theorem C1_counterexample :
    ((lookupTarget c1Store.targets ("t")).map (fun t => t.status) =
      some Status.ok) ∧
    ((lookupTarget c1Store.targets ("t")).map
        (fun t => t.history.map (fun p => p.rtt)) =
      some [25000000, 25000001]) ∧
    ¬ specRecentAvgRTT [25000000, 25000001] 25000001 ≤ (100000000 : ℚ) / 4 := by
  refine ⟨by decide, by decide, ?_⟩
  simp only [specRecentAvgRTT]
  rw [if_neg (by simp : ¬ ([25000000, 25000001] : List Int) = [])]
  norm_num

/-- Claim C1 (amended): for every completed probe, the updated target's
status is exactly the classification of its post-update state where the
recent average RTT is computed with truncating integer division over the last
`min(10, |history|)` samples (with `last_rtt` substituted when that window is
empty or its truncated mean is not positive) and compared against the
truncated `T/4`; on a success the status is OK or WARN and never DOWN, and on
a failure it is DOWN exactly when `consecutive_ng ≥ 3` and WARN when
`consecutive_ng` is 1 or 2. -/
theorem C1_amended_classification (s : StoreImpl) (name : String)
    (result : Result) (now : Int) (hdt : s.downThreshold = 3) :
    ∃ t', lookupTarget (UpdateResult s name result now).targets name =
        some t' ∧
      t'.status = classifyLatest s.timeout result.success
        (t'.history.map (fun p => p.rtt)) t'.lastRTT t'.consecutiveNG ∧
      (result.success = true → t'.status ≠ Status.down) ∧
      (result.success = false →
        ((t'.status = Status.down ↔ 3 ≤ t'.consecutiveNG) ∧
          (t'.consecutiveNG = 1 ∨ t'.consecutiveNG = 2 →
            t'.status = Status.warn))) := by
  refine ⟨updatedTarget s name result now,
    lookupTarget_UpdateResult_self s name result now,
    updatedTarget_status s name result now hdt, ?_, ?_⟩
  · intro hsucc
    rw [updatedTarget_status s name result now hdt, hsucc]
    exact classifyLatest_success_ne_down _ _ _ _
  · intro hfail
    rw [updatedTarget_status s name result now hdt, hfail]
    refine ⟨classifyLatest_failure_down_iff _ _ _ _, ?_⟩
    intro hng
    unfold classifyLatest
    rw [if_neg (by simp), if_neg (by omega)]

/-- Witness for C1: a successful probe on the one-target store yields a
status that is not DOWN. -/
theorem C1_amended_classification_witness :
    ∃ t', lookupTarget (UpdateResult wStore "t" wSuccess 0).targets "t" =
        some t' ∧ t'.status ≠ Status.down := by
  obtain ⟨t', hl, -, hnd, -⟩ :=
    C1_amended_classification wStore "t" wSuccess 0 (by decide)
  exact ⟨t', hl, hnd rfl⟩

/-- Claim C2 (confirmed): one `UpdateResult` call creates the target when
absent and leaves exactly the documented post-state: on a success the sample
is appended (shifting out the oldest at capacity), `last_rtt` and
`last_success_at` are set, `consecutive_ok` and `total_success` are
incremented and `consecutive_ng` cleared; on a failure `last_failure_at` is
set, `consecutive_ng` and `total_failure` are incremented, `consecutive_ok`
is cleared and the history is untouched; in both cases the status is
recomputed from the new state. -/
theorem C2_update_result (s : StoreImpl) (name : String) (result : Result)
    (now : Int) (hdt : s.downThreshold = 3) (hhs : 0 < s.historySize) :
    ∃ t', lookupTarget (UpdateResult s name result now).targets name =
        some t' ∧
      (result.success = true →
        t'.history =
          (if ((prevTarget s name).history.length : Int) < s.historySize
            then (prevTarget s name).history ++
              [{ time := now, rtt := result.rtt }]
            else (prevTarget s name).history.drop 1 ++
              [{ time := now, rtt := result.rtt }]) ∧
        t'.lastRTT = result.rtt ∧
        t'.lastSuccessAt = now ∧
        t'.consecutiveOK = (prevTarget s name).consecutiveOK + 1 ∧
        t'.totalSuccess = (prevTarget s name).totalSuccess + 1 ∧
        t'.consecutiveNG = 0 ∧
        t'.lastFailureAt = (prevTarget s name).lastFailureAt ∧
        t'.totalFailure = (prevTarget s name).totalFailure) ∧
      (result.success = false →
        t'.history = (prevTarget s name).history ∧
        t'.lastFailureAt = now ∧
        t'.consecutiveNG = (prevTarget s name).consecutiveNG + 1 ∧
        t'.totalFailure = (prevTarget s name).totalFailure + 1 ∧
        t'.consecutiveOK = 0 ∧
        t'.lastRTT = (prevTarget s name).lastRTT ∧
        t'.lastSuccessAt = (prevTarget s name).lastSuccessAt ∧
        t'.totalSuccess = (prevTarget s name).totalSuccess) ∧
      t'.status = classifyLatest s.timeout result.success
        (t'.history.map (fun p => p.rtt)) t'.lastRTT t'.consecutiveNG := by
  refine ⟨updatedTarget s name result now,
    lookupTarget_UpdateResult_self s name result now, ?_, ?_,
    updatedTarget_status s name result now hdt⟩
  · intro hsucc
    have hh := updatedTarget_history_success s name result now hsucc
    rw [appendHistory, if_neg (by omega : ¬ s.historySize ≤ 0)] at hh
    refine ⟨hh, ?_, ?_, ?_, ?_, ?_, ?_, ?_⟩ <;>
      · unfold updatedTarget
        simp [hsucc]
  · intro hfail
    refine ⟨updatedTarget_history_failure s name result now hfail,
      ?_, ?_, ?_, ?_, ?_, ?_, ?_⟩ <;>
      · unfold updatedTarget
        simp [hfail]

/-- Witness for C2: a successful probe against the one-target store sets
`last_rtt` and appends the sample. -/
theorem C2_update_result_witness :
    ∃ t', lookupTarget (UpdateResult wStore "t" wSuccess 3).targets "t" =
        some t' ∧ t'.lastRTT = 20000000 ∧ t'.consecutiveNG = 0 := by
  obtain ⟨t', hl, hs, -, -⟩ :=
    C2_update_result wStore "t" wSuccess 3 (by decide) (by decide)
  obtain ⟨-, hrtt, -, -, -, hng, -, -⟩ := hs rfl
  exact ⟨t', hl, hrtt, hng⟩

lemma mem_opsSamples {ops : List StoreOp} {pt : RTTPoint}
    (h : pt ∈ opsSamples ops) :
    ∃ nm result now, StoreOp.update nm result now ∈ ops ∧
      result.success = true ∧ pt = { time := now, rtt := result.rtt } := by
  rcases List.mem_flatMap.mp h with ⟨op, hop, hpt⟩
  cases op with
  | update nm result now =>
    cases hsucc : result.success with
    | false =>
      rw [show opSuccessSamples (StoreOp.update nm result now) =
        (if result.success then [{ time := now, rtt := result.rtt }] else [])
        from rfl, hsucc] at hpt
      simp at hpt
    | true =>
      rw [show opSuccessSamples (StoreOp.update nm result now) =
        (if result.success then [{ time := now, rtt := result.rtt }] else [])
        from rfl, hsucc] at hpt
      exact ⟨nm, result, now, hop, hsucc, by simpa using hpt⟩
  | updateTargetsOp targets => simp [opSuccessSamples] at hpt
  | snapshotOp => simp [opSuccessSamples] at hpt

/-- Claim C3 (confirmed): in every store state reachable from `NewStore` by
any sequence of `UpdateResult`, `UpdateTargets` and `GetSnapshot` operations,
every target's history holds at most 100 samples and every sample it holds
was recorded by a successful probe update of the sequence; moreover a single
failed-probe `UpdateResult` never changes any target's history (an absent
name gets an empty one). -/
theorem C3_history_invariant :
    (∀ (initTargets : List TargetConfig) (timeout : Int) (ops : List StoreOp)
        (m : String) (t : TargetStatus),
        lookupTarget (runOps (NewStore initTargets timeout) ops).targets m =
            some t →
          t.history.length ≤ 100 ∧
            ∀ pt ∈ t.history, ∃ nm result now,
              StoreOp.update nm result now ∈ ops ∧ result.success = true ∧
                pt = { time := now, rtt := result.rtt }) ∧
    (∀ (s : StoreImpl) (name : String) (result : Result) (now : Int)
        (m : String) (t' : TargetStatus), result.success = false →
        lookupTarget (UpdateResult s name result now).targets m = some t' →
        t'.history =
          ((lookupTarget s.targets m).map (fun t => t.history)).getD []) := by
  constructor
  · intro initTargets timeout ops m t hl
    constructor
    · exact (histInv_runOps ops (NewStore initTargets timeout)
        (histInv_NewStore initTargets timeout)).2 m t hl
    · intro pt hpt
      have hfrom := historiesFrom_runOps ops (NewStore initTargets timeout) []
        (historiesFrom_NewStore initTargets timeout)
      have hmem := hfrom m t hl pt hpt
      rw [List.nil_append] at hmem
      exact mem_opsSamples hmem
  · intro s name result now m t' hfail hl
    by_cases hm : m = name
    · subst hm
      rw [lookupTarget_UpdateResult_self] at hl
      cases hl
      rw [updatedTarget_history_failure s m result now hfail]
      unfold prevTarget
      cases hl2 : lookupTarget s.targets m with
      | none => rfl
      | some t0 => rfl
    · rw [lookupTarget_UpdateResult_ne s name m result now hm] at hl
      rw [hl]
      rfl

/-- Ops and the resulting target used to instantiate C3. -/
def c3Ops : List StoreOp :=
  [StoreOp.update ("t") wSuccess 7, StoreOp.snapshotOp]

/-- The target state produced by `c3Ops` on the one-target store. -/
def c3Target : TargetStatus :=
  { name := "t", address := "10.0.0.1", group := "", lastRTT := 20000000,
    lastSuccessAt := 7, lastFailureAt := 0, consecutiveOK := 1,
    consecutiveNG := 0, totalSuccess := 1, totalFailure := 0,
    status := Status.ok, history := [{ time := 7, rtt := 20000000 }] }

/-- Witness for C3: after one successful probe the bound holds and the single
history sample is traced back to that probe. -/
theorem C3_history_invariant_witness :
    c3Target.history.length ≤ 100 ∧
      ∃ nm result now, StoreOp.update nm result now ∈ c3Ops ∧
        result.success = true ∧
        ({ time := 7, rtt := 20000000 } : RTTPoint) =
          { time := now, rtt := result.rtt } := by
  have h := C3_history_invariant.1 [⟨"t", "10.0.0.1", "", []⟩] 100000000
    c3Ops "t" c3Target (by decide)
  exact ⟨h.1, h.2 { time := 7, rtt := 20000000 } (by decide)⟩

/-- Claim C4 (confirmed): after `UpdateTargets U` the stored names are
exactly the names of `U`; a name present before keeps its whole state with
only Address and Group overwritten from `U`'s record; a new name gets a fresh
UNKNOWN target; a name absent from `U` is gone. -/
theorem C4_update_targets (s : StoreImpl) (U : List TargetConfig)
    (hnd : (U.map (fun t => t.name)).Nodup) :
    (∀ n, (lookupTarget (UpdateTargets s U).targets n).isSome = true ↔
      n ∈ U.map (fun t => t.name)) ∧
    (∀ tgt ∈ U, ∀ t, lookupTarget s.targets tgt.name = some t →
      lookupTarget (UpdateTargets s U).targets tgt.name =
        some { t with address := tgt.address, group := tgt.group }) ∧
    (∀ tgt ∈ U, lookupTarget s.targets tgt.name = none →
      lookupTarget (UpdateTargets s U).targets tgt.name =
        some (freshFromConfig tgt)) ∧
    (∀ n, n ∉ U.map (fun t => t.name) →
      lookupTarget (UpdateTargets s U).targets n = none) := by
  refine ⟨?_, ?_, ?_, ?_⟩
  · intro n
    rw [lookupTarget_UpdateTargets]
    cases hx : (U.filter (fun tgt => tgt.name == n)).getLast? with
    | none =>
      have hfil : U.filter (fun tgt => tgt.name == n) = [] := by
        simpa using hx
      simp only [Option.elim]
      constructor
      · intro habs
        simp at habs
      · intro hmem
        rcases List.mem_map.mp hmem with ⟨tgt, htgt, hname⟩
        have : tgt ∈ U.filter (fun tgt => tgt.name == n) :=
          List.mem_filter.mpr ⟨htgt, by simp [hname]⟩
        rw [hfil] at this
        cases this
    | some tgt =>
      simp only [Option.elim]
      constructor
      · intro _
        have htf : tgt ∈ U.filter (fun tgt => tgt.name == n) :=
          List.mem_of_mem_getLast? hx
        have := List.mem_filter.mp htf
        exact List.mem_map.mpr ⟨tgt, this.1, by simpa using this.2⟩
      · intro _
        rfl
  · intro tgt htgt t hl
    rw [lookupTarget_UpdateTargets, filter_name_of_nodup U tgt hnd htgt]
    rw [show ([tgt].getLast? : Option TargetConfig) = some tgt from rfl]
    simp only [Option.elim]
    unfold mergeTarget
    rw [hl]
  · intro tgt htgt hl
    rw [lookupTarget_UpdateTargets, filter_name_of_nodup U tgt hnd htgt]
    rw [show ([tgt].getLast? : Option TargetConfig) = some tgt from rfl]
    simp only [Option.elim]
    unfold mergeTarget
    rw [hl]
  · intro n hn
    rw [lookupTarget_UpdateTargets]
    have hfil : U.filter (fun tgt => tgt.name == n) = [] := by
      rw [List.filter_eq_nil_iff]
      intro q hq hb
      exact hn (List.mem_map.mpr ⟨q, hq, by simpa using hb⟩)
    rw [hfil]
    rfl

/-- The reload input used to instantiate C4: target `t` survives with a new
address and group, `d` is new, and the store's other names disappear. -/
def c4U : List TargetConfig :=
  [⟨"t", "192.0.2.9", "g", []⟩, ⟨"d", "192.0.2.4", "", []⟩]

/-- Witness for C4: the surviving target keeps its state with the new
address, the new name appears fresh, and absent names are deleted. -/
theorem C4_update_targets_witness :
    lookupTarget (UpdateTargets wStore c4U).targets "t" =
      some { freshFromConfig ⟨"t", "10.0.0.1", "", []⟩ with
        address := "192.0.2.9", group := "g" } ∧
    lookupTarget (UpdateTargets wStore c4U).targets "d" =
      some (freshFromConfig ⟨"d", "192.0.2.4", "", []⟩) ∧
    lookupTarget (UpdateTargets wStore c4U).targets "zzz" = none := by
  obtain ⟨-, hb, hc, hd⟩ := C4_update_targets wStore c4U (by decide)
  refine ⟨?_, ?_, ?_⟩
  · exact hb ⟨"t", "192.0.2.9", "g", []⟩ (by decide)
      (freshFromConfig ⟨"t", "10.0.0.1", "", []⟩) (by decide)
  · exact hc ⟨"d", "192.0.2.4", "", []⟩ (by decide) (by decide)
  · exact hd "zzz" (by decide)

/-- Claim C5 (confirmed, spec-modelled): `UpdateTimeout` swaps only the
classification timeout — target table, history capacity and down threshold
are untouched — and every classification performed by a subsequent
`UpdateResult` compares against the new timeout. -/
theorem C5_update_timeout (s : StoreImpl) (newTimeout : Int) (name : String)
    (result : Result) (now : Int) (hdt : s.downThreshold = 3) :
    (UpdateTimeout s newTimeout).timeout = newTimeout ∧
    (UpdateTimeout s newTimeout).targets = s.targets ∧
    (UpdateTimeout s newTimeout).historySize = s.historySize ∧
    (UpdateTimeout s newTimeout).downThreshold = s.downThreshold ∧
    ∃ t', lookupTarget
        (UpdateResult (UpdateTimeout s newTimeout) name result now).targets
          name = some t' ∧
      t'.status = classifyLatest newTimeout result.success
        (t'.history.map (fun p => p.rtt)) t'.lastRTT t'.consecutiveNG := by
  refine ⟨rfl, rfl, rfl, rfl,
    updatedTarget (UpdateTimeout s newTimeout) name result now,
    lookupTarget_UpdateResult_self _ name result now, ?_⟩
  exact updatedTarget_status (UpdateTimeout s newTimeout) name result now hdt

/-- Witness for C5: after swapping the timeout of the one-target store, a
subsequent probe is classified against the new value. -/
theorem C5_update_timeout_witness :
    (UpdateTimeout wStore 50000000).timeout = 50000000 ∧
      ∃ t', lookupTarget
          (UpdateResult (UpdateTimeout wStore 50000000) "t" wSuccess 0).targets
            "t" = some t' ∧
        t'.status = classifyLatest 50000000 wSuccess.success
          (t'.history.map (fun p => p.rtt)) t'.lastRTT t'.consecutiveNG := by
  obtain ⟨h1, -, -, -, h5⟩ :=
    C5_update_timeout wStore 50000000 "t" wSuccess 0 (by decide)
  exact ⟨h1, h5⟩

/-- Claim C6 (confirmed): the fallback wrapper invokes the secondary pinger
and returns its result exactly when the primary returned a failure whose
error is permission-related; a primary success, or any failure that is not
permission-related, is returned verbatim and the secondary is never
invoked. -/
theorem C6_fallback (primary secondary : Pinger) (addr : String)
    (timeout : Int) :
    ((FallbackPing primary secondary addr timeout).2 = true ↔
      ((primary addr timeout).success = false ∧
        isPermissionError (primary addr timeout).error = true)) ∧
    ((primary addr timeout).success = true →
      FallbackPing primary secondary addr timeout =
        (primary addr timeout, false)) ∧
    (isPermissionError (primary addr timeout).error = false →
      FallbackPing primary secondary addr timeout =
        (primary addr timeout, false)) ∧
    ((primary addr timeout).success = false →
      isPermissionError (primary addr timeout).error = true →
      FallbackPing primary secondary addr timeout =
        (secondary addr timeout, true)) := by
  unfold FallbackPing
  cases hs : (primary addr timeout).success <;>
    cases hp : isPermissionError (primary addr timeout).error <;>
      simp [hs, hp]

/-- A stub primary that fails with a permission-related error. -/
def stubPermissionDenied : Pinger := fun _ _ =>
  { rtt := 0, success := false,
    error := some { isErrPermission := true, isEPERM := false, message := [] } }

/-- A stub secondary that succeeds with a 5 ms RTT. -/
def stubSuccess : Pinger := fun _ _ =>
  { rtt := 5000000, success := true, error := none }

/-- A stub primary that fails with a non-permission (network) error. -/
def stubNetworkFail : Pinger := fun _ _ =>
  { rtt := 0, success := false,
    error := some
      { isErrPermission := false, isEPERM := false,
        message := String.toList ("connect: network is unreachable") } }

/-- Witness for C6: with stub pingers, a permission-denied primary routes to
the secondary and a network failure is returned verbatim. -/
theorem C6_fallback_witness :
    FallbackPing stubPermissionDenied stubSuccess ("h") 1000000 =
      (stubSuccess ("h") 1000000, true) ∧
    FallbackPing stubNetworkFail stubSuccess ("h") 1000000 =
      (stubNetworkFail ("h") 1000000, false) := by
  constructor
  · exact (C6_fallback stubPermissionDenied stubSuccess ("h") 1000000).2.2.2
      (by decide) (by decide)
  · exact (C6_fallback stubNetworkFail stubSuccess ("h") 1000000).2.2.1
      (by decide)

/-- Claim C7 (confirmed): the engine identifier is the low 16 bits of the
process ID; each probe sends the sequence obtained by incrementing the
engine-scoped counter by one, wrapping modulo 2^32; and the receive loop
succeeds exactly when a packet arrives — before any read failure — that is a
parsed echo reply whose identifier and sequence both equal the ones sent on
this probe, every earlier packet being discarded as non-matching. -/
theorem C7_icmp_matching (pid : Nat) (p : ICMPPinger)
    (events : List RecvEvent) :
    (NewICMPPinger pid).id = pid % 65536 ∧
    (NewICMPPinger pid).seq = 0 ∧
    (icmpPing p events).1.id = p.id ∧
    (icmpPing p events).1.seq = (p.seq + 1) % 4294967296 ∧
    (icmpPing p events).2.1 = (p.seq + 1) % 4294967296 ∧
    ((icmpPing p events).2.2 = true ↔
      ∃ pre pkt post, events = pre ++ RecvEvent.recv pkt :: post ∧
        packetMatches p.id ((p.seq + 1) % 4294967296) pkt = true ∧
        ∀ e ∈ pre, ∃ q, e = RecvEvent.recv q ∧
          packetMatches p.id ((p.seq + 1) % 4294967296) q = false) := by
  refine ⟨?_, rfl, rfl, rfl, rfl, ?_⟩
  · unfold NewICMPPinger
    simpa using Nat.and_pow_two_sub_one_eq_mod pid 16
  · exact receiveLoop_eq_true_iff p.id ((p.seq + 1) % 4294967296) events

/-- An echo reply matching engine id 5 and sequence 0. -/
def c7Match : RecvPacket :=
  { hasPeer := true, parseOk := true, isReplyType := true, isEchoBody := true,
    id := 5, seq := 0 }

/-- An echo reply for a different identifier, to be discarded. -/
def c7Stray : RecvPacket :=
  { hasPeer := true, parseOk := true, isReplyType := true, isEchoBody := true,
    id := 99, seq := 0 }

/-- Witness for C7: an engine whose counter is `2^32 - 1` sends sequence 0
next (overflow wraps), discards a stray reply with a foreign identifier, and
succeeds on the matching one. -/
theorem C7_icmp_matching_witness :
    (icmpPing { id := 5, seq := 4294967295 }
      [RecvEvent.recv c7Stray, RecvEvent.recv c7Match]).1.seq = 0 ∧
    (icmpPing { id := 5, seq := 4294967295 }
      [RecvEvent.recv c7Stray, RecvEvent.recv c7Match]).2.2 = true := by
  have h := C7_icmp_matching 5 { id := 5, seq := 4294967295 }
    [RecvEvent.recv c7Stray, RecvEvent.recv c7Match]
  refine ⟨by simpa using h.2.2.2.1, ?_⟩
  refine h.2.2.2.2.2.mpr ⟨[RecvEvent.recv c7Stray], c7Match, [], rfl,
    by decide, ?_⟩
  intro e he
  rw [List.mem_singleton] at he
  subst he
  exact ⟨c7Stray, rfl, by decide⟩

/-- Claim C8 is corrected: on the non-darwin platforms the code rounds the
timeout to the *nearest* whole second — it adds one half second and
truncates — not upward.  At a timeout of 1.25 s the code passes `-W 1`
while rounding up would pass `-W 2`. -/
theorem C8_counterexample :
    pingArgs GOOS.linuxOrOther false ("198.51.100.7") 1250000000 =
      ["-n", "-c", "1", "-W", "1", "198.51.100.7"] ∧
    specTimeoutSecRoundUp 1250000000 = 2 ∧
    pingArgs GOOS.linuxOrOther false ("198.51.100.7") 1250000000 ≠
      ["-n", "-c", "1", "-W", toString (specTimeoutSecRoundUp 1250000000),
        "198.51.100.7"] := by
  refine ⟨by decide, by decide, by decide⟩

/-- Claim C8 (amended): the timeout argument passed to the platform tool is,
on darwin for IPv4, the timeout in whole milliseconds (truncated) with a
floor of 100; on darwin for IPv6, absent (the context enforces the
deadline); on the other platforms, the timeout rounded to the nearest whole
second — half a second rounds up — with a floor of 1. -/
theorem C8_amended (goos : GOOS) (isIPv6Addr : Bool) (addr : String)
    (timeout : Int) (h : 0 ≤ timeout) :
    (goos = GOOS.darwin → isIPv6Addr = true →
      pingArgs goos isIPv6Addr addr timeout = ["-n", "-c", "1", addr]) ∧
    (goos = GOOS.darwin → isIPv6Addr = false →
      ∃ m : Int, pingArgs goos isIPv6Addr addr timeout =
          ["-n", "-c", "1", "-W", toString (max 100 m), addr] ∧
        m * 1000000 ≤ timeout ∧ timeout < (m + 1) * 1000000) ∧
    (goos = GOOS.linuxOrOther →
      ∃ v : Int, pingArgs goos isIPv6Addr addr timeout =
          ["-n", "-c", "1", "-W", toString (max 1 v), addr] ∧
        v * 1000000000 - 500000000 ≤ timeout ∧
        timeout < v * 1000000000 + 500000000) := by
  have hmax : ∀ a b : Int, maxIntGo a b = max a b := by
    intro a b
    unfold maxIntGo
    split
    · omega
    · omega
  refine ⟨?_, ?_, ?_⟩
  · intro hg hv
    subst hg
    subst hv
    rfl
  · intro hg hv
    subst hg
    subst hv
    refine ⟨durationMilliseconds timeout, ?_, ?_, ?_⟩
    · simp only [pingArgs, hmax]
      rw [if_neg (by simp)]
    · unfold durationMilliseconds
      rw [Int.tdiv_eq_ediv h (by omega)]
      omega
    · unfold durationMilliseconds
      rw [Int.tdiv_eq_ediv h (by omega)]
      omega
  · intro hg
    subst hg
    refine ⟨timeoutSecGo timeout, ?_, ?_, ?_⟩
    · simp only [pingArgs, hmax]
    · unfold timeoutSecGo
      rw [Int.tdiv_eq_ediv (by omega) (by omega)]
      omega
    · unfold timeoutSecGo
      rw [Int.tdiv_eq_ediv (by omega) (by omega)]
      omega

/-- Witness for C8: a 2.5 s timeout on the non-darwin branch. -/
theorem C8_amended_witness :
    ∃ v : Int, pingArgs GOOS.linuxOrOther false ("h") 2500000000 =
        ["-n", "-c", "1", "-W", toString (max 1 v), "h"] ∧
      v * 1000000000 - 500000000 ≤ 2500000000 ∧
      (2500000000 : Int) < v * 1000000000 + 500000000 :=
  (C8_amended GOOS.linuxOrOther false ("h") 2500000000 (by decide)).2.2 rfl

/-- Claim C9 is corrected: `escapeLabel` alone escapes backslashes and double
quotes so that Prometheus unescaping restores the original, but
`writePerTarget` then formats the escaped value with Go's `%q` verb, which
escapes it a second time.  For the name `a"` the written label value is
`a\\\"`, which a compliant parser unescapes to `a\"`, not to the original
`a"`. -/
theorem C9_counterexample :
    writtenLabelValue ['a', '"'] = ['a', '\\', '\\', '\\', '"'] ∧
    promUnescape (writtenLabelValue ['a', '"']) ≠ ['a', '"'] := by
  refine ⟨by decide, by decide⟩

/-- Claim C9 (amended): for printable-ASCII label inputs, Prometheus
unescaping of the `escapeLabel` image returns the original string (escaping
is a left inverse of unescaping), but the label value actually written by
`writePerTarget` is the `%q`-quoted image of the escaped value, and one
round of unescaping returns the `escapeLabel` image rather than the
original. -/
theorem C9_amended (value : List Char)
    (h : ∀ c ∈ value, 32 ≤ c.toNat ∧ c.toNat < 127) :
    promUnescape (escapeLabel value) = value ∧
    promUnescape (writtenLabelValue value) = escapeLabel value := by
  constructor
  · rw [escapeLabel_eq_flatMap]
    exact promUnescape_flatMap value
  · unfold writtenLabelValue
    exact promUnescape_flatMap (escapeLabel value)

/-- Witness for C9: the round trips on the value `a"b\`. -/
theorem C9_amended_witness :
    promUnescape (escapeLabel ['a', '"', 'b', '\\']) = ['a', '"', 'b', '\\'] ∧
    promUnescape (writtenLabelValue ['a', '"', 'b', '\\']) =
      escapeLabel ['a', '"', 'b', '\\'] :=
  C9_amended ['a', '"', 'b', '\\'] (by decide)

/-- Claim C10 (confirmed): each probe-loop iteration waits a positive
duration: exactly the configured interval when it is positive, and the fixed
floor of one second (10^9 ns) when the configured interval is zero or
negative. -/
theorem C10_interval_floor (configured : Int) :
    0 < loopInterval configured ∧
    (0 < configured → loopInterval configured = configured) ∧
    (configured ≤ 0 → loopInterval configured = 1000000000) := by
  unfold loopInterval
  refine ⟨?_, ?_, ?_⟩
  · split
    · omega
    · omega
  · intro h
    rw [if_neg (by omega)]
  · intro h
    rw [if_pos h]

/-- Witness for C10: a negative configured interval is replaced by one
second; a positive one is kept. -/
theorem C10_interval_floor_witness :
    loopInterval (-5) = 1000000000 ∧ loopInterval 250000000 = 250000000 :=
  ⟨(C10_interval_floor (-5)).2.2 (by decide),
    (C10_interval_floor 250000000).2.1 (by decide)⟩

end Surveiller
